import Mathlib

/-
Verification of the WattWise battery dispatch app (src/wattwise.py) against its
natural-language specification.  All numeric quantities are modelled over the
rationals; the mixed-integer linear program built in optimize_battery
(lines 701 to 779) is embedded as an explicit constraint system, and the pure
helper functions (window search, forecast loops, time helpers) are translated
directly as executable functions.
-/

/-! ## The optimize_battery constraint system (wattwise.py lines 701 to 779) -/

/-- Parameters read by optimize_battery before building the problem:
the horizon T (self.T), the step length delta (self.DELTA_HOURS), device
parameters, the initial state of charge SoC_0, and the consumption and
solar forecast vectors C_t and S_t. -/
structure BatteryParams where
  T : ℕ
  delta : ℚ
  efficiency : ℚ
  capacity : ℚ
  lowerLimit : ℚ
  chargeRateMax : ℚ
  dischargeRateMax : ℚ
  soc0 : ℚ
  consumption : ℕ → ℚ
  solar : ℕ → ℚ

/-- One assignment of the decision variables of the problem: grid import G,
solar charge Ch_solar, grid charge Ch_grid, discharge Dch, export E,
surplus solar, the binary FullCharge indicator, and SoC (indices 0..T). -/
structure BatteryVars where
  G : ℕ → ℚ
  ChSolar : ℕ → ℚ
  ChGrid : ℕ → ℚ
  Dch : ℕ → ℚ
  E : ℕ → ℚ
  Surp : ℕ → ℚ
  Full : ℕ → ℚ
  SoC : ℕ → ℚ

/-- Feasibility for the embedded problem: the variable bounds declared with
LpVariable (lowBound 0, SoC bounded by 0 and capacity, FullCharge binary)
together with every constraint added in the loop of optimize_battery
(lines 735 to 779), written one field per source constraint. -/
structure Feasible (p : BatteryParams) (v : BatteryVars) : Prop where
  g_nonneg : ∀ t, t < p.T → 0 ≤ v.G t
  chs_nonneg : ∀ t, t < p.T → 0 ≤ v.ChSolar t
  chg_nonneg : ∀ t, t < p.T → 0 ≤ v.ChGrid t
  dch_nonneg : ∀ t, t < p.T → 0 ≤ v.Dch t
  e_nonneg : ∀ t, t < p.T → 0 ≤ v.E t
  surp_nonneg : ∀ t, t < p.T → 0 ≤ v.Surp t
  full_binary : ∀ t, t < p.T → v.Full t = 0 ∨ v.Full t = 1
  soc_lb : ∀ t, t ≤ p.T → 0 ≤ v.SoC t
  soc_ub : ∀ t, t ≤ p.T → v.SoC t ≤ p.capacity
  soc_init : v.SoC 0 = p.soc0
  balance : ∀ t, t < p.T →
    p.solar t + v.G t + v.Dch t * p.efficiency
      = p.consumption t + v.ChSolar t + v.ChGrid t + v.E t
  soc_update : ∀ t, t < p.T →
    v.SoC (t + 1)
      = v.SoC t + (v.ChSolar t + v.ChGrid t) * p.efficiency * p.delta
        - v.Dch t * p.delta
  soc_min : ∀ t, t < p.T → p.lowerLimit ≤ v.SoC (t + 1)
  soc_max : ∀ t, t < p.T → v.SoC (t + 1) ≤ p.capacity
  charge_rate : ∀ t, t < p.T → v.ChSolar t + v.ChGrid t ≤ p.chargeRateMax
  chs_le_solar : ∀ t, t < p.T → v.ChSolar t ≤ p.solar t
  dch_rate : ∀ t, t < p.T → v.Dch t ≤ p.dischargeRateMax
  surp_def : ∀ t, t < p.T → p.solar t - p.consumption t ≤ v.Surp t
  chs_le_surp : ∀ t, t < p.T → v.ChSolar t ≤ v.Surp t
  chg_le_g : ∀ t, t < p.T → v.ChGrid t ≤ v.G t
  full_link : ∀ t, t < p.T →
    p.capacity - (1 - v.Full t) * (2 * p.capacity) ≤ v.SoC (t + 1)
  export_gate : ∀ t, t < p.T → v.E t ≤ v.Full t * (2 * p.capacity)

/-- One element of self.charging_schedule as appended at lines 820 to 832
(the datetime field is omitted; grid export keeps the name gridExport since
its source key is a Lean keyword). -/
structure ScheduleEntry where
  chargeSolar : ℚ
  chargeGrid : ℚ
  discharge : ℚ
  gridExport : ℚ
  gridImport : ℚ
  consumption : ℚ
  soc : ℚ
  fullCharge : ℚ

/-- Default schedule entry, used only as the getD default. -/
def dEntry : ScheduleEntry :=
  { chargeSolar := 0, chargeGrid := 0, discharge := 0, gridExport := 0,
    gridImport := 0, consumption := 0, soc := 0, fullCharge := 0 }

/-- The schedule extraction loop of optimize_battery (lines 795 to 833):
entry t copies the solved variable values at index t; in particular the
soc field is SoC[t]. -/
def chargingSchedule (p : BatteryParams) (v : BatteryVars) : List ScheduleEntry :=
  (List.range p.T).map fun t =>
    { chargeSolar := v.ChSolar t, chargeGrid := v.ChGrid t,
      discharge := v.Dch t, gridExport := v.E t, gridImport := v.G t,
      consumption := p.consumption t, soc := v.SoC t, fullCharge := v.Full t }

/-- Entry of the extracted schedule at step t. -/
def scheduleEntryAt (p : BatteryParams) (v : BatteryVars) (t : ℕ) : ScheduleEntry :=
  (chargingSchedule p v).getD t dEntry

/-- The state of charge obtained by applying the SoC recursion of the
specification to the initial SoC for the first t steps.  Stated from the
wording of the spec to compare against the soc field of the extracted
schedule. -/
def socIter (p : BatteryParams) (v : BatteryVars) : ℕ → ℚ
  | 0 => p.soc0
  | t + 1 =>
    socIter p v t + (v.ChSolar t + v.ChGrid t) * p.efficiency * p.delta
      - v.Dch t * p.delta

/-! ### Concrete feasible instances of the constraint system -/

/-- Instance A: one step, surplus variable strictly above its lower bound. -/
def exPA : BatteryParams :=
  { T := 1, delta := 1, efficiency := 1, capacity := 10, lowerLimit := 1,
    chargeRateMax := 6, dischargeRateMax := 6, soc0 := 2,
    consumption := fun _ => 3, solar := fun _ => 5 }

/-- Variables for instance A: all solar power is sent to the battery even
though only 2 kW of it is surplus, with Surp set to 10. -/
def exVA : BatteryVars :=
  { G := fun _ => 3, ChSolar := fun _ => 5, ChGrid := fun _ => 0,
    Dch := fun _ => 0, E := fun _ => 0, Surp := fun _ => 10,
    Full := fun _ => 0, SoC := fun t => if t = 0 then 2 else 7 }

/-- Instance B: one step starting with the battery empty, below the buffer
limit of 1, and charging from the grid up to the limit. -/
def exPB : BatteryParams :=
  { T := 1, delta := 1, efficiency := 1, capacity := 10, lowerLimit := 1,
    chargeRateMax := 6, dischargeRateMax := 6, soc0 := 0,
    consumption := fun _ => 0, solar := fun _ => 0 }

/-- Variables for instance B. -/
def exVB : BatteryVars :=
  { G := fun _ => 1, ChSolar := fun _ => 0, ChGrid := fun _ => 1,
    Dch := fun _ => 0, E := fun _ => 0, Surp := fun _ => 0,
    Full := fun _ => 0, SoC := fun t => if t = 0 then 0 else 1 }

/-- Instance C: one step with the battery full and exporting solar power. -/
def exPC : BatteryParams :=
  { T := 1, delta := 1, efficiency := 1, capacity := 10, lowerLimit := 1,
    chargeRateMax := 6, dischargeRateMax := 6, soc0 := 10,
    consumption := fun _ => 0, solar := fun _ => 5 }

/-- Variables for instance C. -/
def exVC : BatteryVars :=
  { G := fun _ => 0, ChSolar := fun _ => 0, ChGrid := fun _ => 0,
    Dch := fun _ => 0, E := fun _ => 5, Surp := fun _ => 5,
    Full := fun _ => 1, SoC := fun _ => 10 }

lemma exVA_feasible : Feasible exPA exVA := by
  constructor <;>
    first
      | (intro t ht
         simp only [exPA] at ht
         interval_cases t <;> norm_num [exPA, exVA])
      | norm_num [exPA, exVA]

lemma exVB_feasible : Feasible exPB exVB := by
  constructor <;>
    first
      | (intro t ht
         simp only [exPB] at ht
         interval_cases t <;> norm_num [exPB, exVB])
      | norm_num [exPB, exVB]

lemma exVC_feasible : Feasible exPC exVC := by
  constructor <;>
    first
      | (intro t ht
         simp only [exPC] at ht
         interval_cases t <;> norm_num [exPC, exVC])
      | norm_num [exPC, exVC]

/-! ## Window search: find_cheapest_windows (wattwise.py lines 1498 to 1533) -/

/-- Translation of find_cheapest_windows.  The running minimum starts as
float infinity, modelled as an Option that is none until a window passes
the threshold filter; min_start starts at 0.  The guard for an invalid
window size (line 1513) returns the empty list; otherwise the function
returns list(range(min_start, min_start + window_size)). -/
def find_cheapest_windows (thresh : ℚ) (prices : List ℚ) (window_size : ℕ) :
    List ℕ :=
  if window_size = 0 ∨ prices.length < window_size then []
  else
    let r := (List.range (prices.length - window_size + 1)).foldl
      (fun (acc : Option ℚ × ℕ) (i : ℕ) =>
        let window := (prices.drop i).take window_size
        if window.any (fun price => thresh < price) then acc
        else
          match acc.1 with
          | none => (some window.sum, i)
          | some m =>
            if window.sum < m then (some window.sum, i) else acc)
      (none, 0)
    List.range' r.2 window_size

/-! ## Daily window persistence (wattwise.py lines 890 to 901 and 969 to 979)

identify_cheapest_hours and identify_most_expensive_hours share the same
persistence logic, differing only in the file they use; the step below
models that shared logic once. -/

/-- The persisted window document: the forecast_date stamp (absent when the
file does not exist or failed to load) and the windows mapping. -/
structure WindowsDoc where
  forecastDate : Option String
  windows : List (String × List String)

/-- The inputs of one run that the persistence decision reads: the current
local date (forecast_date.isoformat()), the local hour and minute of
get_now_time, and the windows computed from the raw price tables this run. -/
structure WindowRun where
  date : String
  hour : ℕ
  minute : ℕ
  computed : List (String × List String)

/-- One run of the persistence decision: save the computed windows when the
stored forecast_date differs from the current date and now.hour > 16,
otherwise keep the document and prefer the loaded windows when they are
non-empty.  Returns the new document, the windows the run publishes, and
whether it persisted. -/
def windowPersistStep (doc : WindowsDoc) (r : WindowRun) :
    WindowsDoc × List (String × List String) × Bool :=
  if doc.forecastDate ≠ some r.date ∧ 16 < r.hour then
    ({ forecastDate := some r.date, windows := r.computed }, r.computed, true)
  else
    (doc, if doc.windows ≠ [] then doc.windows else r.computed, false)

/-- A sequence of runs threading the persisted document through, collecting
the persisted flags in order. -/
def runAll : WindowsDoc → List WindowRun → WindowsDoc × List Bool
  | doc, [] => (doc, [])
  | doc, r :: rs =>
    let s := windowPersistStep doc r
    let rest := runAll s.1 rs
    (rest.1, s.2.2 :: rest.2)

/-! ## Consumption forecast (wattwise.py lines 359 to 392) -/

/-- The value field of one history sample: either a state string that
parses as a float, or one that does not (is_float false). -/
inductive SampleValue where
  | num (q : ℚ)
  | nonnum
deriving DecidableEq

/-- One retained history sample with its local time of day.  Entries whose
timestamp is absent are skipped by the source before bucketing and are not
modelled. -/
structure HistorySample where
  hour : ℕ
  minute : ℕ
  value : SampleValue

/-- Slot index of a local time: hour * (60 // stepMinutes) + minute // stepMinutes. -/
def slotOf (stepMin h m : ℕ) : ℕ := h * (60 / stepMin) + m / stepMin

/-- One iteration of the bucketing loop (lines 363 to 376): numeric values
are appended to the list of their slot, others are dropped. -/
def slotInsert (stepMin : ℕ) (f : ℕ → List ℚ) (s : HistorySample) : ℕ → List ℚ :=
  match s.value with
  | SampleValue.num q =>
    fun sl => if sl = slotOf stepMin s.hour s.minute then f sl ++ [q] else f sl
  | SampleValue.nonnum => f

/-- The slot_consumption mapping after bucketing the whole history. -/
def slotLists (stepMin : ℕ) (hist : List HistorySample) : ℕ → List ℚ :=
  hist.foldl (slotInsert stepMin) (fun _ => [])

/-- Mean of a slot: sum / len, or 0 for an empty slot (lines 378 to 385). -/
def slotMean (l : List ℚ) : ℚ := if l = [] then 0 else l.sum / (l.length : ℚ)

/-- The average_slot list over all slots_per_day = 24*60 // stepMinutes slots. -/
def averageSlots (stepMin : ℕ) (hist : List HistorySample) : List ℚ :=
  (List.range (24 * 60 / stepMin)).map fun sl => slotMean (slotLists stepMin hist sl)

/-- Slot of the forecast time now + t * stepMinutes, wrapping over midnight. -/
def forecastTimeSlot (stepMin nowH nowM t : ℕ) : ℕ :=
  let total := (nowH * 60 + nowM + stepMin * t) % 1440
  slotOf stepMin (total / 60) (total % 60)

/-- The forecast construction loop (lines 387 to 392): one average_slot
value per future step. -/
def get_consumption_forecast (stepMin nowH nowM T : ℕ)
    (hist : List HistorySample) : List ℚ :=
  (List.range T).map fun t =>
    (averageSlots stepMin hist).getD (forecastTimeSlot stepMin nowH nowM t) 0

/-- The numeric samples of the history that fall in a given slot, written
from the wording of the spec for comparison with the bucketed means. -/
def slotSamples (stepMin : ℕ) (hist : List HistorySample) (slot : ℕ) : List ℚ :=
  hist.filterMap fun s =>
    match s.value with
    | SampleValue.num q =>
      if slotOf stepMin s.hour s.minute = slot then some q else none
    | SampleValue.nonnum => none

/-! ## Forecast truncation and the run pipeline
(wattwise.py lines 270 to 304, 487 to 582, 584 to 637) -/

/-- Mutable fields of the app that the forecast stages read and write:
self.T, self.solar_forecast and self.price_forecast. -/
structure AppState where
  T : ℕ
  solarForecast : List ℚ
  priceForecast : List ℚ

/-- External inputs of one run: the requested horizon (TIME_HORIZON steps,
restored at line 281), whether today's solar table is present with at least
one usable point (lines 505 and 537), the interpolated solar value at each
step (interp_value, none when the target time is outside the point range),
whether today's price table is present (line 602), the combined per-step
price entries (the total field of each), and the current step-of-day index
(line 619). -/
structure RunEnv where
  requestedT : ℕ
  solarAvailable : Bool
  solarVal : ℕ → Option ℚ
  priceAvailable : Bool
  prices : List ℚ
  currentIndex : ℕ

/-- The solar loop (lines 569 to 579): walk the step indices, appending
interpolated values; at the first step with no value, stop and report that
index as the truncated horizon. -/
def solarScan (val : ℕ → Option ℚ) : List ℕ → List ℚ × Option ℕ
  | [] => ([], none)
  | t :: ts =>
    match val t with
    | none => ([], some t)
    | some v =>
      let r := solarScan val ts
      (v :: r.1, r.2)

/-- get_solar_production_forecast: when the data for today is missing or no
usable point exists, log and return leaving the state untouched (lines 505
to 507 and 537 to 539, reached before self.solar_forecast is reset);
otherwise build the forecast and truncate T at the first missing step. -/
def get_solar_production_forecast (env : RunEnv) (st : AppState) : AppState :=
  if env.solarAvailable then
    let r := solarScan env.solarVal (List.range st.T)
    { st with solarForecast := r.1, T := (r.2).getD st.T }
  else st

/-- The price loop (lines 621 to 633): read combined[currentIndex + t],
scaling the total by 100; at the first index beyond the data, stop and
report that step as the truncated horizon. -/
def priceScan (combined : List ℚ) (cur : ℕ) : List ℕ → List ℚ × Option ℕ
  | [] => ([], none)
  | t :: ts =>
    if cur + t < combined.length then
      let r := priceScan combined cur ts
      (combined.getD (cur + t) 0 * 100 :: r.1, r.2)
    else ([], some t)

/-- get_energy_price_forecast: self.price_forecast is cleared first
(line 595); when the data for today is missing, log and return; otherwise
build the forecast and truncate T at the first missing index. -/
def get_energy_price_forecast (env : RunEnv) (st : AppState) : AppState :=
  let st1 : AppState := { st with priceForecast := [] }
  if env.priceAvailable then
    let r := priceScan env.prices env.currentIndex (List.range st1.T)
    { st1 with priceForecast := r.1, T := (r.2).getD st1.T }
  else st1

/-- The data optimize_battery reads from the shared fields when it is
invoked (lines 681 to 691): the horizon and the two forecast vectors. -/
structure BatterySolveCall where
  T : ℕ
  solar : List ℚ
  price : List ℚ
deriving DecidableEq

/-- The run pipeline of optimize (lines 270 to 304): reset T to the
requested horizon, run the forecast stages in order, then invoke
optimize_battery unconditionally on whatever the shared fields hold.  The
consumption stage neither reads nor changes these fields and is modelled
separately by get_consumption_forecast. -/
def optimize (env : RunEnv) (st0 : AppState) : AppState × BatterySolveCall :=
  let st1 : AppState := { st0 with T := env.requestedT }
  let st2 := get_solar_production_forecast env st1
  let st3 := get_energy_price_forecast env st2
  (st3, { T := st3.T, solar := st3.solarForecast, price := st3.priceForecast })

/-- The solar truncation point: the first step whose target time cannot be
interpolated, or the requested horizon when every step has a value. -/
def solarCut (env : RunEnv) : ℕ :=
  (((List.range env.requestedT).find? fun t => (env.solarVal t).isNone)).getD
    env.requestedT

/-- The price truncation point: the number of combined price entries at or
after the current index. -/
def priceCut (env : RunEnv) : ℕ := env.prices.length - env.currentIndex

/-! ## Module level time helpers (wattwise.py lines 1637 to 1673) -/

/-- The class dictionary of WattWise holds no entry named STEP_MINUTES:
the configured step is assigned to the instance in initialize (line 58),
and instance attributes are invisible to getattr on the class and to
WattWise.__dict__.get.  Both lookups therefore always miss. -/
def wattWiseClassDictStepMinutes : Option ℕ := none

/-- The step the module level helpers resolve:
getattr(WattWise, "STEP_MINUTES", 15) respectively
WattWise.__dict__.get("STEP_MINUTES", 15).  The configured instance value
is taken as an argument to show it cannot influence the result. -/
def moduleStepMinutes (_instanceStepMinutes : ℕ) : ℕ :=
  wattWiseClassDictStepMinutes.getD 15

/-- A local wall clock time as datetime exposes it. -/
structure PyTime where
  day : ℤ
  hour : ℕ
  minute : ℕ
  second : ℕ

/-- Seconds since the epoch of day 0. -/
def toSeconds (t : PyTime) : ℤ :=
  t.day * 86400 + t.hour * 3600 + t.minute * 60 + t.second

/-- get_now_time (lines 1662 to 1673): round the minutes down to a multiple
of the resolved step and zero the seconds (and microseconds). -/
def get_now_time (cfg : ℕ) (now : PyTime) : PyTime :=
  let step := moduleStepMinutes cfg
  { now with minute := now.minute / step * step, second := 0 }

/-- relativeHourToDate (lines 1637 to 1646): now plus hour * step minutes,
returned as seconds since the epoch. -/
def relativeHourToDate (cfg : ℕ) (now : PyTime) (hour : ℤ) : ℤ :=
  toSeconds now + hour * (moduleStepMinutes cfg : ℤ) * 60

/-- dateToRelativeHour (lines 1649 to 1659): floor division of the signed
distance in seconds by step * 60. -/
def dateToRelativeHour (cfg : ℕ) (dateSec : ℤ) (now : PyTime) : ℤ :=
  Int.fdiv (dateSec - toSeconds now) ((moduleStepMinutes cfg : ℤ) * 60)

/-! ## Theorems -/

lemma scheduleEntryAt_eq (p : BatteryParams) (v : BatteryVars) {t : ℕ}
    (ht : t < p.T) :
    scheduleEntryAt p v t =
      { chargeSolar := v.ChSolar t, chargeGrid := v.ChGrid t,
        discharge := v.Dch t, gridExport := v.E t, gridImport := v.G t,
        consumption := p.consumption t, soc := v.SoC t,
        fullCharge := v.Full t } := by
  unfold scheduleEntryAt chargingSchedule
  rw [List.getD_eq_getElem?_getD]
  simp [List.getElem?_range, ht]

/-- Claim C1 (corrected), counterexample: a feasible assignment of the
embedded constraint system in which the solar charge strictly exceeds
max(0, solar - consumption), because the surplus variable is only bounded
below and may sit above the actual surplus. -/
theorem c1_counterexample :
    Feasible exPA exVA ∧
      max 0 (exPA.solar 0 - exPA.consumption 0) < exVA.ChSolar 0 :=
  ⟨exVA_feasible, by norm_num [exPA, exVA]⟩

/-- Claim C1 as amended: in every feasible assignment, the grid charge is
bounded by the grid import, and the solar charge is bounded by the solar
forecast and by the surplus variable, which itself is only bounded below by
max(0, solar - consumption); the bound Chs_t <= max(0, solar - consumption)
itself need not hold. -/
theorem c1_amended (p : BatteryParams) (v : BatteryVars) (hf : Feasible p v) :
    ∀ t, t < p.T →
      v.ChGrid t ≤ v.G t ∧ v.ChSolar t ≤ p.solar t ∧
      v.ChSolar t ≤ v.Surp t ∧
      max 0 (p.solar t - p.consumption t) ≤ v.Surp t := by
  intro t ht
  exact ⟨hf.chg_le_g t ht, hf.chs_le_solar t ht, hf.chs_le_surp t ht,
    max_le (hf.surp_nonneg t ht) (hf.surp_def t ht)⟩

/-- Witness for c1_amended at instance A and step 0. -/
theorem c1_witness :
    0 < exPA.T ∧
      (exVA.ChGrid 0 ≤ exVA.G 0 ∧ exVA.ChSolar 0 ≤ exPA.solar 0 ∧
        exVA.ChSolar 0 ≤ exVA.Surp 0 ∧
        max 0 (exPA.solar 0 - exPA.consumption 0) ≤ exVA.Surp 0) :=
  ⟨by norm_num [exPA],
    c1_amended exPA exVA exVA_feasible 0 (by norm_num [exPA])⟩

/-- Claim C5 (corrected), counterexample: a feasible assignment whose first
schedule entry carries a state of charge strictly below the lower limit,
since SoC_0 is fixed to the supplied initial value and the lower limit is
only imposed on SoC_{t+1}. -/
theorem c5_counterexample :
    Feasible exPB exVB ∧ (scheduleEntryAt exPB exVB 0).soc < exPB.lowerLimit :=
  ⟨exVB_feasible, by
    norm_num [scheduleEntryAt, chargingSchedule, exPB, exVB]⟩

/-- Claim C5 as amended: every schedule extracted from a feasible
assignment satisfies the power balance at each step and the SoC recursion
between consecutive entries, every entry soc lies in [0, capacity], and
every entry after the first has soc at least lowerLimit; the first entry
holds the supplied initial SoC, which may lie below lowerLimit. -/
theorem c5_amended (p : BatteryParams) (v : BatteryVars) (hf : Feasible p v) :
    ∀ t, t < p.T →
      (p.solar t + (scheduleEntryAt p v t).gridImport
          + (scheduleEntryAt p v t).discharge * p.efficiency
        = (scheduleEntryAt p v t).consumption
          + (scheduleEntryAt p v t).chargeSolar
          + (scheduleEntryAt p v t).chargeGrid
          + (scheduleEntryAt p v t).gridExport)
      ∧ (t + 1 < p.T →
          (scheduleEntryAt p v (t + 1)).soc
            = (scheduleEntryAt p v t).soc
              + ((scheduleEntryAt p v t).chargeSolar
                  + (scheduleEntryAt p v t).chargeGrid)
                * p.efficiency * p.delta
              - (scheduleEntryAt p v t).discharge * p.delta)
      ∧ 0 ≤ (scheduleEntryAt p v t).soc
      ∧ (scheduleEntryAt p v t).soc ≤ p.capacity
      ∧ (0 < t → p.lowerLimit ≤ (scheduleEntryAt p v t).soc) := by
  intro t ht
  rw [scheduleEntryAt_eq p v ht]
  refine ⟨hf.balance t ht, ?_, hf.soc_lb t (le_of_lt ht),
    hf.soc_ub t (le_of_lt ht), ?_⟩
  · intro ht1
    rw [scheduleEntryAt_eq p v ht1]
    exact hf.soc_update t ht
  · intro htpos
    obtain ⟨s, rfl⟩ :=
      Nat.exists_eq_succ_of_ne_zero (Nat.pos_iff_ne_zero.mp htpos)
    exact hf.soc_min s (by omega)

/-- Witness for c5_amended at instance A and step 0. -/
theorem c5_witness :
    0 < exPA.T ∧
      ((exPA.solar 0 + (scheduleEntryAt exPA exVA 0).gridImport
          + (scheduleEntryAt exPA exVA 0).discharge * exPA.efficiency
        = (scheduleEntryAt exPA exVA 0).consumption
          + (scheduleEntryAt exPA exVA 0).chargeSolar
          + (scheduleEntryAt exPA exVA 0).chargeGrid
          + (scheduleEntryAt exPA exVA 0).gridExport)
      ∧ (0 + 1 < exPA.T →
          (scheduleEntryAt exPA exVA (0 + 1)).soc
            = (scheduleEntryAt exPA exVA 0).soc
              + ((scheduleEntryAt exPA exVA 0).chargeSolar
                  + (scheduleEntryAt exPA exVA 0).chargeGrid)
                * exPA.efficiency * exPA.delta
              - (scheduleEntryAt exPA exVA 0).discharge * exPA.delta)
      ∧ 0 ≤ (scheduleEntryAt exPA exVA 0).soc
      ∧ (scheduleEntryAt exPA exVA 0).soc ≤ exPA.capacity
      ∧ (0 < 0 → exPA.lowerLimit ≤ (scheduleEntryAt exPA exVA 0).soc)) :=
  ⟨by norm_num [exPA],
    c5_amended exPA exVA exVA_feasible 0 (by norm_num [exPA])⟩

/-- Claim C6: in every feasible assignment of the embedded constraints a
strictly positive export at step t forces the FullCharge indicator to 1,
through the constraint E_t <= Full_t * (2 * capacity) together with Full_t
being binary. -/
theorem c6_export_gating (p : BatteryParams) (v : BatteryVars)
    (hf : Feasible p v) :
    ∀ t, t < p.T → 0 < v.E t → v.Full t = 1 := by
  intro t ht hE
  rcases hf.full_binary t ht with h0 | h1
  · have hle := hf.export_gate t ht
    rw [h0] at hle
    simp only [zero_mul] at hle
    linarith
  · exact h1

/-- Witness for c6_export_gating at instance C and step 0. -/
theorem c6_witness : 0 < exVC.E 0 ∧ exVC.Full 0 = 1 :=
  ⟨by norm_num [exVC],
    c6_export_gating exPC exVC exVC_feasible 0 (by norm_num [exPC])
      (by norm_num [exVC])⟩

lemma soc_eq_socIter (p : BatteryParams) (v : BatteryVars)
    (hf : Feasible p v) : ∀ t, t ≤ p.T → v.SoC t = socIter p v t := by
  intro t
  induction t with
  | zero => intro _; simpa [socIter] using hf.soc_init
  | succ s ih =>
    intro hst
    have hs : s < p.T := by omega
    rw [hf.soc_update s hs, ih (by omega)]
    simp [socIter]

/-- Claim C7 (corrected), counterexample: a feasible assignment whose first
schedule entry carries the initial SoC, not the initial SoC with step 0
applied: the extraction loop stores SoC[t], the state before step t. -/
theorem c7_counterexample :
    Feasible exPB exVB ∧
      (scheduleEntryAt exPB exVB 0).soc ≠ socIter exPB exVB 1 :=
  ⟨exVB_feasible, by
    norm_num [scheduleEntryAt, chargingSchedule, socIter, exPB, exVB]⟩

/-- Claim C7 as amended: in every schedule extracted from a feasible
assignment, the soc field of entry t is the state of charge before step t,
the supplied initial SoC with steps 0..t-1 applied through the SoC
recursion. -/
theorem c7_amended (p : BatteryParams) (v : BatteryVars) (hf : Feasible p v) :
    ∀ t, t < p.T → (scheduleEntryAt p v t).soc = socIter p v t := by
  intro t ht
  rw [scheduleEntryAt_eq p v ht]
  exact soc_eq_socIter p v hf t (le_of_lt ht)

/-- Witness for c7_amended at instance A and step 0. -/
theorem c7_witness :
    0 < exPA.T ∧ (scheduleEntryAt exPA exVA 0).soc = socIter exPA exVA 0 :=
  ⟨by norm_num [exPA],
    c7_amended exPA exVA exVA_feasible 0 (by norm_num [exPA])⟩

lemma solarScan_snd (val : ℕ → Option ℚ) :
    ∀ l : List ℕ, (solarScan val l).2 = l.find? fun t => (val t).isNone := by
  intro l
  induction l with
  | nil => rfl
  | cons t ts ih =>
    cases hv : val t with
    | none => simp [solarScan, hv, List.find?_cons]
    | some v => simp [solarScan, hv, List.find?_cons, ih]

lemma priceScan_range'_snd (c : List ℚ) (cur : ℕ) :
    ∀ n a, (priceScan c cur (List.range' a n)).2 =
      if cur + a + n ≤ c.length ∨ n = 0 then none
      else some (max a (c.length - cur)) := by
  intro n
  induction n with
  | zero => intro a; simp [List.range', priceScan]
  | succ m ih =>
    intro a
    rw [List.range'_succ]
    by_cases hc : cur + a < c.length
    · have hstep : (priceScan c cur (a :: List.range' (a + 1) m)).2
          = (priceScan c cur (List.range' (a + 1) m)).2 := by
        simp [priceScan, hc]
      rw [hstep, ih (a + 1)]
      by_cases h1 : cur + (a + 1) + m ≤ c.length ∨ m = 0
      · rw [if_pos h1, if_pos (by omega)]
      · rw [if_neg h1, if_neg (by omega)]
        congr 1
        omega
    · have hstep : (priceScan c cur (a :: List.range' (a + 1) m)).2 = some a := by
        simp [priceScan, hc]
      rw [hstep, if_neg (by omega)]
      congr 1
      omega

lemma priceScan_range_getD (c : List ℚ) (cur n : ℕ) :
    ((priceScan c cur (List.range n)).2).getD n = min n (c.length - cur) := by
  rw [List.range_eq_range', priceScan_range'_snd]
  by_cases h : cur + 0 + n ≤ c.length ∨ n = 0
  · rw [if_pos h]
    simp only [Option.getD_none]
    omega
  · rw [if_neg h]
    simp only [Option.getD_some]
    omega

lemma solarCut_le (env : RunEnv) : solarCut env ≤ env.requestedT := by
  unfold solarCut
  cases hf : (List.range env.requestedT).find? fun t => (env.solarVal t).isNone with
  | none => simp
  | some t =>
    simp only [Option.getD_some]
    exact le_of_lt (List.mem_range.mp (List.mem_of_find?_eq_some hf))

/-- Claim C4: when both forecast sources are present, the horizon the
battery solve is finally invoked with never exceeds the requested horizon
and equals the minimum of the requested horizon, the first solar step that
cannot be interpolated, and the number of price entries available from the
current index on. -/
theorem c4_horizon (env : RunEnv) (st0 : AppState)
    (hs : env.solarAvailable = true) (hp : env.priceAvailable = true) :
    (optimize env st0).2.T ≤ env.requestedT ∧
    (optimize env st0).2.T
      = min env.requestedT (min (solarCut env) (priceCut env)) := by
  have hT : (optimize env st0).2.T = min (solarCut env) (priceCut env) := by
    simp only [optimize, get_solar_production_forecast,
      get_energy_price_forecast, hs, hp, if_true]
    rw [solarScan_snd]
    rw [show ((List.range env.requestedT).find? fun t =>
        (env.solarVal t).isNone).getD env.requestedT = solarCut env from rfl]
    exact priceScan_range_getD env.prices env.currentIndex (solarCut env)
  have hle := solarCut_le env
  constructor
  · rw [hT]; omega
  · rw [hT]; omega

/-- Environment for the c4 witness: solar interpolation fails at step 3,
price data runs out after two more entries. -/
def envW : RunEnv :=
  { requestedT := 4, solarAvailable := true,
    solarVal := fun t => if t < 3 then some 1 else none,
    priceAvailable := true, prices := [1, 1, 1, 1, 1], currentIndex := 3 }

/-- Empty starting state for the pipeline witnesses. -/
def stW : AppState := { T := 0, solarForecast := [], priceForecast := [] }

/-- Witness for c4_horizon at a concrete environment. -/
theorem c4_witness :
    envW.solarAvailable = true ∧ envW.priceAvailable = true ∧
    (optimize envW stW).2.T ≤ envW.requestedT ∧
    (optimize envW stW).2.T
      = min envW.requestedT (min (solarCut envW) (priceCut envW)) :=
  ⟨rfl, rfl, (c4_horizon envW stW rfl rfl).1, (c4_horizon envW stW rfl rfl).2⟩

/-- Environment in which the solar forecast for today is absent while the
price data is present. -/
def envMissingSolar : RunEnv :=
  { requestedT := 2, solarAvailable := false, solarVal := fun _ => none,
    priceAvailable := true, prices := [1, 2, 3, 4], currentIndex := 0 }

/-- State left by a previous successful run: a full length stale solar
forecast is still stored in self.solar_forecast. -/
def stStale : AppState := { T := 2, solarForecast := [1, 2], priceForecast := [5, 5] }

/-- Claim C2 (code bug): with the solar forecast for today absent,
get_solar_production_forecast merely returns from the method, and the run
pipeline still reaches the battery solve with a full horizon and the stale
solar forecast of the previous run, instead of aborting. -/
theorem c2_code_behavior :
    (optimize envMissingSolar stStale).2.T = 2
    ∧ (optimize envMissingSolar stStale).2.solar = [1, 2]
    ∧ (optimize envMissingSolar stStale).2.price = [100, 200] := by
  refine ⟨rfl, rfl, ?_⟩
  have h : (optimize envMissingSolar stStale).2.price
      = [(1 : ℚ) * 100, (2 : ℚ) * 100] := rfl
  rw [h]
  norm_num

/-- Claim C3 (code bug): with the threshold at 80 every window of length 1
of the day price list [100] contains a step above the threshold, yet
find_cheapest_windows returns the window starting at index 0 rather than
an empty list, because min_start keeps its initial value 0 when every
window is skipped. -/
theorem c3_code_behavior :
    ((List.range 1).all fun i =>
        ((([(100 : ℚ)]).drop i).take 1).any fun price => (80 : ℚ) < price)
        = true
    ∧ find_cheapest_windows 80 [(100 : ℚ)] 1 = [0]
    ∧ find_cheapest_windows 80 [(100 : ℚ)] 1 ≠ [] := by
  refine ⟨by decide, by decide, by decide⟩

lemma runAll_cons (doc : WindowsDoc) (r : WindowRun) (rs : List WindowRun) :
    runAll doc (r :: rs) =
      ((runAll (windowPersistStep doc r).1 rs).1,
        (windowPersistStep doc r).2.2 :: (runAll (windowPersistStep doc r).1 rs).2) :=
  rfl

lemma runAll_no_persist (doc : WindowsDoc) (runs : List WindowRun) (d : String)
    (hdoc : doc.forecastDate = some d) (hd : ∀ r ∈ runs, r.date = d) :
    (runAll doc runs).2.count true = 0 := by
  induction runs generalizing doc with
  | nil => rfl
  | cons r rs ih =>
    have hr : r.date = d := hd r (List.mem_cons_self r rs)
    have hcond : ¬(doc.forecastDate ≠ some r.date ∧ 16 < r.hour) := by
      rw [hr, hdoc]
      simp
    have hs : windowPersistStep doc r
        = (doc, (if doc.windows ≠ [] then doc.windows else r.computed), false) := by
      unfold windowPersistStep
      rw [if_neg hcond]
    rw [runAll_cons, hs]
    simp only [List.count_cons]
    have hz := ih doc hdoc (fun x hx => hd x (List.mem_cons_of_mem r hx))
    simp [hz]

lemma runAll_count_le_one (doc : WindowsDoc) (runs : List WindowRun) (d : String)
    (hd : ∀ r ∈ runs, r.date = d) : (runAll doc runs).2.count true ≤ 1 := by
  induction runs generalizing doc with
  | nil => simp [runAll]
  | cons r rs ih =>
    have hr : r.date = d := hd r (List.mem_cons_self r rs)
    by_cases hcond : doc.forecastDate ≠ some r.date ∧ 16 < r.hour
    · have hs : windowPersistStep doc r
          = ({ forecastDate := some r.date, windows := r.computed },
              r.computed, true) := by
        unfold windowPersistStep
        rw [if_pos hcond]
      rw [runAll_cons, hs]
      simp only [List.count_cons]
      have hz := runAll_no_persist
        { forecastDate := some r.date, windows := r.computed } rs d
        (by simp [hr]) (fun x hx => hd x (List.mem_cons_of_mem r hx))
      simp [hz]
    · have hs : windowPersistStep doc r
          = (doc, (if doc.windows ≠ [] then doc.windows else r.computed),
              false) := by
        unfold windowPersistStep
        rw [if_neg hcond]
      rw [runAll_cons, hs]
      simp only [List.count_cons]
      have hz := ih doc (fun x hx => hd x (List.mem_cons_of_mem r hx))
      simp
      omega

/-- Claim C8: over any sequence of runs within one calendar day, the shared
persistence logic of identify_cheapest_hours and
identify_most_expensive_hours saves at most once; a run persists only at a
local time strictly after the 16:00 cutoff; and a run that does not persist
while a stored non-empty assignment exists (in particular one stamped with
the current date) publishes the stored assignment instead of the freshly
computed windows. -/
theorem c8_persistence (doc : WindowsDoc) (runs : List WindowRun) (d : String)
    (hd : ∀ r ∈ runs, r.date = d) :
    (runAll doc runs).2.count true ≤ 1
    ∧ (∀ doc2 r, (windowPersistStep doc2 r).2.2 = true →
        16 * 60 < 60 * r.hour + r.minute)
    ∧ (∀ doc2 r, (windowPersistStep doc2 r).2.2 = false →
        doc2.forecastDate = some r.date → doc2.windows ≠ [] →
        (windowPersistStep doc2 r).2.1 = doc2.windows) := by
  refine ⟨runAll_count_le_one doc runs d hd, ?_, ?_⟩
  · intro doc2 r hflag
    by_cases hcond : doc2.forecastDate ≠ some r.date ∧ 16 < r.hour
    · have := hcond.2
      omega
    · exfalso
      unfold windowPersistStep at hflag
      rw [if_neg hcond] at hflag
      simp at hflag
  · intro doc2 r hflag hdate hw
    unfold windowPersistStep
    by_cases hcond : doc2.forecastDate ≠ some r.date ∧ 16 < r.hour
    · exfalso
      unfold windowPersistStep at hflag
      rw [if_pos hcond] at hflag
      simp at hflag
    · rw [if_neg hcond]
      simp [hw]

/-- Empty starting document for the c8 witness. -/
def wDoc0 : WindowsDoc := { forecastDate := none, windows := [] }

/-- First run of the day, after the cutoff. -/
def wRunA : WindowRun :=
  { date := "2025-10-11", hour := 17, minute := 0,
    computed := [("cheapest_dates_1", ["2025-10-11T12:00:00"])] }

/-- Second run of the same day. -/
def wRunB : WindowRun :=
  { date := "2025-10-11", hour := 17, minute := 15,
    computed := [("cheapest_dates_1", ["2025-10-11T12:00:00"])] }

/-- Witness for c8_persistence on two same-day runs. -/
theorem c8_witness :
    (∀ r ∈ [wRunA, wRunB], r.date = "2025-10-11")
    ∧ (runAll wDoc0 [wRunA, wRunB]).2.count true ≤ 1 :=
  ⟨by intro r hr; fin_cases hr <;> rfl,
    (c8_persistence wDoc0 [wRunA, wRunB] "2025-10-11"
      (by intro r hr; fin_cases hr <;> rfl)).1⟩

lemma getD_map_range {α : Type} (f : ℕ → α) (d : α) {n t : ℕ} (h : t < n) :
    ((List.range n).map f).getD t d = f t := by
  rw [List.getD_eq_getElem?_getD, List.getElem?_map]
  simp [List.getElem?_range, h]

lemma slotLists_aux (stepMin : ℕ) (hist : List HistorySample) :
    ∀ (f0 : ℕ → List ℚ) (sl : ℕ),
      (hist.foldl (slotInsert stepMin) f0) sl
        = f0 sl ++ slotSamples stepMin hist sl := by
  induction hist with
  | nil => intro f0 sl; simp [slotSamples]
  | cons s rest ih =>
    intro f0 sl
    rw [List.foldl_cons, ih (slotInsert stepMin f0 s) sl]
    cases hv : s.value with
    | num q =>
      have hins : slotInsert stepMin f0 s sl
          = if slotOf stepMin s.hour s.minute = sl then f0 sl ++ [q]
            else f0 sl := by
        simp only [slotInsert, hv]
        by_cases hsl : slotOf stepMin s.hour s.minute = sl
        · rw [if_pos hsl.symm, if_pos hsl]
        · rw [if_neg fun hh => hsl hh.symm, if_neg hsl]
      have hsel : slotSamples stepMin (s :: rest) sl
          = (if slotOf stepMin s.hour s.minute = sl then [q] else [])
            ++ slotSamples stepMin rest sl := by
        simp only [slotSamples, List.filterMap_cons, hv]
        by_cases hsl : slotOf stepMin s.hour s.minute = sl
        · rw [if_pos hsl, if_pos hsl]
          rfl
        · rw [if_neg hsl, if_neg hsl]
          rfl
      rw [hins, hsel]
      by_cases hsl : slotOf stepMin s.hour s.minute = sl
      · rw [if_pos hsl, if_pos hsl, List.append_assoc]
      · rw [if_neg hsl, if_neg hsl]
        rfl
    | nonnum =>
      have hins : slotInsert stepMin f0 s sl = f0 sl := by
        simp only [slotInsert, hv]
      have hsel : slotSamples stepMin (s :: rest) sl
          = slotSamples stepMin rest sl := by
        simp only [slotSamples, List.filterMap_cons, hv]
      rw [hins, hsel]

lemma slotLists_eq (stepMin : ℕ) (hist : List HistorySample) (sl : ℕ) :
    slotLists stepMin hist sl = slotSamples stepMin hist sl := by
  unfold slotLists
  rw [slotLists_aux]
  simp

lemma slot_lt_of_lt_1440 (stepMin s total : ℕ) (hpos : 0 < stepMin)
    (hs : 60 = stepMin * s) (htot : total < 1440) :
    total / 60 * s + total % 60 / stepMin < 24 * s := by
  have hH : total / 60 < 24 := by omega
  have hM : total % 60 < 60 := Nat.mod_lt _ (by norm_num)
  have hmdiv : total % 60 / stepMin < s := by
    rw [Nat.div_lt_iff_lt_mul hpos]
    calc total % 60 < 60 := hM
      _ = s * stepMin := by rw [hs]; ring
  calc total / 60 * s + total % 60 / stepMin
      < total / 60 * s + s := by omega
    _ = (total / 60 + 1) * s := by ring
    _ ≤ 24 * s := Nat.mul_le_mul_right s (by omega)

lemma forecastTimeSlot_lt (stepMin nowH nowM t : ℕ) (hpos : 0 < stepMin)
    (hdvd : stepMin ∣ 60) :
    forecastTimeSlot stepMin nowH nowM t < 24 * 60 / stepMin := by
  obtain ⟨s, hs⟩ := hdvd
  have h60s : 60 / stepMin = s := by
    rw [hs]
    exact Nat.mul_div_cancel_left s hpos
  have hday : 24 * 60 / stepMin = 24 * s := by
    have h2460 : 24 * 60 = stepMin * (24 * s) := by rw [hs]; ring
    rw [h2460]
    exact Nat.mul_div_cancel_left _ hpos
  have htot : (nowH * 60 + nowM + stepMin * t) % 1440 < 1440 :=
    Nat.mod_lt _ (by norm_num)
  have key := slot_lt_of_lt_1440 stepMin s
    ((nowH * 60 + nowM + stepMin * t) % 1440) hpos hs htot
  unfold forecastTimeSlot slotOf
  show (nowH * 60 + nowM + stepMin * t) % 1440 / 60 * (60 / stepMin)
      + (nowH * 60 + nowM + stepMin * t) % 1440 % 60 / stepMin
      < 24 * 60 / stepMin
  rw [h60s, hday]
  exact key

/-- Claim C9: for every history and every step inside the horizon, the
consumption forecast value is the arithmetic mean of the numeric samples of
the time-of-day slot of now + t * step, is 0 when that slot holds no
sample, and samples whose value does not parse as a number contribute to no
slot. -/
theorem c9_consumption_mean (stepMin nowH nowM T : ℕ)
    (hist : List HistorySample) (t : ℕ) (hpos : 0 < stepMin)
    (hdvd : stepMin ∣ 60) (ht : t < T) :
    (get_consumption_forecast stepMin nowH nowM T hist).getD t 0
      = (if slotSamples stepMin hist (forecastTimeSlot stepMin nowH nowM t) = []
         then 0
         else (slotSamples stepMin hist
             (forecastTimeSlot stepMin nowH nowM t)).sum
           / ((slotSamples stepMin hist
             (forecastTimeSlot stepMin nowH nowM t)).length : ℚ)) := by
  unfold get_consumption_forecast
  rw [getD_map_range _ _ ht]
  have hlt := forecastTimeSlot_lt stepMin nowH nowM t hpos hdvd
  unfold averageSlots
  rw [getD_map_range _ _ hlt]
  simp only [slotMean, slotLists_eq]

/-- History for the c9 witness: two numeric samples and one malformed
sample, all in the slot of 10:00 with a 15 minute step. -/
def hist9 : List HistorySample :=
  [ { hour := 10, minute := 7, value := SampleValue.num 4 },
    { hour := 10, minute := 3, value := SampleValue.num 2 },
    { hour := 10, minute := 5, value := SampleValue.nonnum } ]

/-- Witness for c9_consumption_mean on a concrete history. -/
theorem c9_witness :
    (0 : ℕ) < 15 ∧ (15 : ℕ) ∣ 60 ∧ (0 : ℕ) < 1 ∧
    (get_consumption_forecast 15 10 0 1 hist9).getD 0 0
      = (if slotSamples 15 hist9 (forecastTimeSlot 15 10 0 0) = [] then 0
         else (slotSamples 15 hist9 (forecastTimeSlot 15 10 0 0)).sum
           / ((slotSamples 15 hist9 (forecastTimeSlot 15 10 0 0)).length : ℚ)) :=
  ⟨by norm_num, by norm_num,
    by norm_num,
    c9_consumption_mean 15 10 0 1 hist9 0 (by norm_num) (by norm_num)
      (by norm_num)⟩

/-- Claim C10: whatever step size is configured on the instance, the module
level helpers resolve a 15 minute step, because the class dictionary of
WattWise holds no STEP_MINUTES entry: get_now_time rounds the minutes down
to a multiple of 15 and zeroes the seconds, and the two step-count
conversions both use 900 seconds per step. -/
theorem c10_fixed_step :
    ∀ (cfg : ℕ) (now : PyTime) (h : ℤ) (ds : ℤ),
      moduleStepMinutes cfg = 15
      ∧ (get_now_time cfg now).minute = now.minute / 15 * 15
      ∧ (get_now_time cfg now).second = 0
      ∧ (get_now_time cfg now).hour = now.hour
      ∧ (get_now_time cfg now).day = now.day
      ∧ 15 ∣ (get_now_time cfg now).minute
      ∧ relativeHourToDate cfg now h = toSeconds now + h * 15 * 60
      ∧ dateToRelativeHour cfg ds now = Int.fdiv (ds - toSeconds now) (15 * 60) := by
  intro cfg now h ds
  refine ⟨rfl, rfl, rfl, rfl, rfl, ?_, rfl, rfl⟩
  show 15 ∣ now.minute / 15 * 15
  omega

/-- Witness for c10_fixed_step at a configured step of 30 minutes. -/
theorem c10_witness :
    moduleStepMinutes 30 = 15
    ∧ (get_now_time 30 { day := 0, hour := 12, minute := 37, second := 5 }).minute
        = 37 / 15 * 15
    ∧ (get_now_time 30 { day := 0, hour := 12, minute := 37, second := 5 }).second
        = 0
    ∧ (get_now_time 30 { day := 0, hour := 12, minute := 37, second := 5 }).hour
        = 12
    ∧ (get_now_time 30 { day := 0, hour := 12, minute := 37, second := 5 }).day
        = 0
    ∧ 15 ∣ (get_now_time 30 { day := 0, hour := 12, minute := 37, second := 5 }).minute
    ∧ relativeHourToDate 30 { day := 0, hour := 12, minute := 37, second := 5 } 2
        = toSeconds { day := 0, hour := 12, minute := 37, second := 5 } + 2 * 15 * 60
    ∧ dateToRelativeHour 30 1000 { day := 0, hour := 12, minute := 37, second := 5 }
        = Int.fdiv (1000 - toSeconds { day := 0, hour := 12, minute := 37, second := 5 })
            (15 * 60) :=
  c10_fixed_step 30 { day := 0, hour := 12, minute := 37, second := 5 } 2 1000
